import Mathlib

/-!
Verification development for the `SpeechActivityDetection` pipeline
(`pyannote/audio/pipeline/speech_activity_detection.py`).

Shallow embedding conventions:
* floating-point score entries are modelled as `Option ℚ`, with `none`
  standing for IEEE NaN; all arithmetic and comparisons lift accordingly
  (any comparison with NaN is false, arithmetic with NaN yields NaN);
* `np.exp` is modelled by an arbitrary parameter `expf : ℚ → ℚ` threaded
  through the pipeline (its analytic properties are irrelevant to the
  orchestration logic; NaN handling is lifted by `Option.map`);
* the collaborating classes that live in this repository but outside the
  provided file (`Precomputed`, `Binarize`) and the external interfaces
  (feature store, detection-error-rate metric, file descriptors) are
  modelled from the specification's description of their contracts; each
  such definition says so in its doc comment.
-/

/-- Score-matrix entry: `some q` is an ordinary float value, `none` is NaN. -/
abbrev Score := Option ℚ

/-- Time segment, as a (start, end) pair of rational timestamps. -/
abbrev Seg := ℚ × ℚ

/-- Labeled interval collection: a list of (segment, label) pairs. -/
abbrev Annot := List (Seg × String)

/-- Concatenation of the lists produced by `f` over `l` (local helper, used
instead of the library `bind` so that all membership lemmas are self-contained). -/
def concatMap (f : α → List β) : List α → List β
  | [] => []
  | x :: xs => f x ++ concatMap f xs

/-- All entries of a score matrix, row-major (the flattening `np.nanmean` sees). -/
def flattenS (data : List (List Score)) : List Score :=
  concatMap id data

/-- Turns a list of entries into `some` list of values when no entry is NaN. -/
def listSequence : List Score → Option (List ℚ)
  | [] => some []
  | none :: _ => none
  | some v :: xs => (listSequence xs).map (fun vs => v :: vs)

/-- Mean of the non-NaN entries of a matrix, as computed by `np.nanmean`:
NaN entries are ignored; if no non-NaN entry exists the result is NaN (`none`). -/
def nanmean (data : List (List Score)) : Score :=
  if ((flattenS data).filterMap id).length = 0 then none
  else some (((flattenS data).filterMap id).sum / (((flattenS data).filterMap id).length : ℚ))

/-- Mean of the matrix under plain IEEE semantics (`np.mean`): any NaN entry,
or an empty matrix, makes the mean NaN. This is the spec-side reading of
"the mean of all entries"; compare with `nanmean`, which the code uses. -/
def floatMean (data : List (List Score)) : Score :=
  match listSequence (flattenS data) with
  | none => none
  | some vs => if vs.length = 0 then none else some (vs.sum / (vs.length : ℚ))

/-- Strict-negativity test on a possibly-NaN value: `NaN < 0` is false. -/
def nanLtZero : Score → Bool
  | some v => decide (v < 0)
  | none => false

/-- Scale flag as the spec sentence words it: negative mean of all entries
(plain IEEE mean) means log-scaled. Spec-side definition, for comparison with
the code's `nanmean`-based test. -/
def specScaleFlag (data : List (List Score)) : Bool :=
  nanLtZero (floatMean data)

/-- Column 0 of a row (the non-speech class), `data[:, 0]` row-wise. -/
def col0 (row : List Score) : Score :=
  row.headD none

/-- NaN-aware `1 - x`. -/
def oneMinus (x : Score) : Score :=
  x.map (fun v => 1 - v)

/-- NaN-aware entrywise `np.exp` on a matrix (`exp NaN = NaN`). -/
def expMatrix (expf : ℚ → ℚ) (data : List (List Score)) : List (List Score) :=
  data.map (fun row => row.map (Option.map expf))

/-- Per-frame speech probability track: exponentiate the matrix when the
log-scale flag is set, then take `1 - column 0` of each frame. -/
def speechTrack (expf : ℚ → ℚ) (log_scale : Bool) (data : List (List Score)) :
    List Score :=
  (if log_scale then expMatrix expf data else data).map (fun row => oneMinus (col0 row))

/-- Sliding-window descriptor: frame start offset, frame duration, frame step.
Modelled from the spec: "a sliding-window descriptor (frame duration, frame
step, start offset) that maps row index → time interval". -/
structure SlidingWindow where
  start : ℚ
  duration : ℚ
  step : ℚ
deriving DecidableEq

/-- Score matrix together with its sliding window (`SlidingWindowFeature`). -/
structure SWFeature where
  data : List (List Score)
  window : SlidingWindow
deriving DecidableEq

/-- File descriptor. Modelled from the spec: "a mapping with at least an
`annotation` entry (reference labeled intervals) and enough identifying fields
to derive a unique identifier and an annotated extent"; the file's precomputed
score matrix is carried alongside, since the feature store is keyed by file. -/
structure File where
  uid : String
  swf : SWFeature
  annot : Annot
  annotated : List Seg
deriving DecidableEq

/-- Precomputed feature store handle, wrapping the scores path. -/
structure Precomputed where
  root : String
deriving DecidableEq

/-- Modelled from the spec: the feature store's
`load(file_descriptor) → (score_matrix, sliding_window_descriptor)`; the
matrix and window for a file are those recorded in its descriptor. -/
def Precomputed.load (_p : Precomputed) (f : File) : SWFeature :=
  f.swf

/-- Continuous hyper-parameter domain declared by `chocolate.uniform(lo, hi)`. -/
structure HyperUniform where
  lo : ℚ
  hi : ℚ
deriving DecidableEq

/-- Binarizer configuration, as constructed by `instantiate` from the six
current hyper-parameter values. -/
structure Binarize where
  onset : ℚ
  offset : ℚ
  min_duration_on : ℚ
  min_duration_off : ℚ
  pad_onset : ℚ
  pad_offset : ℚ
deriving DecidableEq

/-- NaN-aware strict comparison `q < y` (false when `y` is NaN). -/
def scoreGt (y : Score) (q : ℚ) : Bool :=
  match y with
  | some v => decide (q < v)
  | none => false

/-- NaN-aware strict comparison `y < q` (false when `y` is NaN). -/
def scoreLt (y : Score) (q : ℚ) : Bool :=
  match y with
  | some v => decide (v < q)
  | none => false

/-- Hysteresis sweep over the (timestamp, value) samples. `active` carries the
start time of the region currently open, `last` the previous timestamp (used
to close a region still open when the track ends). -/
def hystAux (onset offset : ℚ) : Option ℚ → ℚ → List (ℚ × Score) → List Seg
  | none, _, [] => []
  | some st, last, [] => [(st, last)]
  | none, _, (t, y) :: rest =>
    if scoreGt y onset then hystAux onset offset (some t) t rest
    else hystAux onset offset none t rest
  | some st, _, (t, y) :: rest =>
    if scoreLt y offset then (st, t) :: hystAux onset offset none t rest
    else hystAux onset offset (some st) t rest

/-- Modelled from the spec: "a region becomes active when the score rises
above `onset` and stays active until the score falls below `offset`". -/
def hysteresis (onset offset : ℚ) (track : List (ℚ × Score)) : List Seg :=
  hystAux onset offset none 0 track

/-- Gap-filling sweep: `cur` is the region being grown; a following region
whose gap to `cur` is shorter than `mdoff` is merged into it. -/
def fillGapsAux (mdoff : ℚ) (cur : Seg) : List Seg → List Seg
  | [] => [cur]
  | r :: rest =>
    if r.1 - cur.2 < mdoff then fillGapsAux mdoff (cur.1, max cur.2 r.2) rest
    else cur :: fillGapsAux mdoff r rest

/-- Modelled from the spec: inactive regions shorter than `min_duration_off`
are merged into their neighbors. -/
def fillGaps (mdoff : ℚ) : List Seg → List Seg
  | [] => []
  | r :: rest => fillGapsAux mdoff r rest

/-- Active regions retained after hysteresis, gap filling and suppression of
regions shorter than `min_duration_on`; this is the stage right before padding. -/
def Binarize.retained (b : Binarize) (track : List (ℚ × Score)) : List Seg :=
  (fillGaps b.min_duration_off (hysteresis b.onset b.offset track)).filter
    (fun r => decide (b.min_duration_on ≤ r.2 - r.1))

/-- Modelled from the spec: each retained region's boundaries are extended by
`pad_onset` (on the start side) and `pad_offset` (on the end side); a region
whose padded end does not lie strictly after its padded start degenerates to
empty and is not emitted, so padding never inverts start/end order. -/
def Binarize.apply (b : Binarize) (track : List (ℚ × Score)) : List Seg :=
  (b.retained track).filterMap (fun r =>
    if r.1 + b.pad_onset < r.2 + b.pad_offset
    then some (r.1 + b.pad_onset, r.2 + b.pad_offset) else none)

/-- Modelled from the spec: the scalar track is fed to the binarizer together
with its sliding-window descriptor; sample `i` is timestamped at the middle of
frame `i`. -/
def samplesOf (w : SlidingWindow) (track : List Score) : List (ℚ × Score) :=
  track.enum.map (fun p => (w.start + (p.1 : ℚ) * w.step + w.duration / 2, p.2))

/-- Intersection of two segments, `none` when empty. -/
def segInter (x y : Seg) : Option Seg :=
  let s := max x.1 y.1
  let e := min x.2 y.2
  if s < e then some (s, e) else none

/-- Pairwise intersection of two interval lists. -/
def interSegs (A B : List Seg) : List Seg :=
  concatMap (fun a => B.filterMap (segInter a)) A

/-- Set difference of one segment by another: at most two residual pieces. -/
def segSub (p b : Seg) : List Seg :=
  (if p.1 < min p.2 b.1 then [(p.1, min p.2 b.1)] else []) ++
  (if max p.1 b.2 < p.2 then [(max p.1 b.2, p.2)] else [])

/-- One subtraction step: remove segment `b` from every piece of `acc`. -/
def subStep (acc : List Seg) (b : Seg) : List Seg :=
  concatMap (fun p => segSub p b) acc

/-- Subtract every segment of `B` from the segment `a`. -/
def subMany (a : Seg) (B : List Seg) : List Seg :=
  B.foldl subStep [a]

/-- Interval-list difference `A \ B`. -/
def diffSegs (A B : List Seg) : List Seg :=
  concatMap (fun a => subMany a B) A

/-- Insertion into a list sorted by start time. -/
def insertSeg (x : Seg) : List Seg → List Seg
  | [] => [x]
  | y :: ys => if x.1 ≤ y.1 then x :: y :: ys else y :: insertSeg x ys

/-- Sort segments by start time. -/
def sortSegs (l : List Seg) : List Seg :=
  l.foldr insertSeg []

/-- Merge pass over start-sorted segments, coalescing overlaps. -/
def mergeAux (cur : Seg) : List Seg → List Seg
  | [] => [cur]
  | y :: ys =>
    if y.1 ≤ cur.2 then mergeAux (cur.1, max cur.2 y.2) ys
    else cur :: mergeAux y ys

/-- Merge overlapping segments of a start-sorted list. -/
def mergeSorted : List Seg → List Seg
  | [] => []
  | x :: xs => mergeAux x xs

/-- Total duration covered by a list of segments (measure of their union). -/
def segMeasure (l : List Seg) : ℚ :=
  ((mergeSorted (sortSegs (l.filter (fun r => decide (r.1 < r.2))))).map
    (fun r => r.2 - r.1)).sum

/-- Segments of a labeled interval collection, labels dropped. -/
def annSupport (a : Annot) : List Seg :=
  a.map Prod.fst

/-- Pairwise intersections within one interval list (regions covered at least
twice, used by the overlap-skipping option of the metric). -/
def pairwiseInters : List Seg → List Seg
  | [] => []
  | x :: xs => xs.filterMap (segInter x) ++ pairwiseInters xs

/-- Collar neighborhoods of the boundaries of the reference segments. -/
def collarZones (c : ℚ) (segs : List Seg) : List Seg :=
  concatMap (fun r => [(r.1 - c / 2, r.1 + c / 2), (r.2 - c / 2, r.2 + c / 2)]) segs

/-- Detection-error-rate metric configuration (`DetectionErrorRate(collar,
skip_overlap)` from `pyannote.metrics.detection`). -/
structure DetectionErrorRate where
  collar : ℚ
  skip_overlap : Bool
deriving DecidableEq

/-- Modelled from the spec: "compute(reference, hypothesis, evaluated_extent,
collar, skip_overlap) → scalar error rate" — a detection error rate restricted
to the annotated extent: (false alarm + missed detection) / total, where total
is the reference speech duration inside the extent, false alarm the hypothesis
speech outside the reference, missed detection the reference speech outside
the hypothesis; the collar removes a neighborhood of reference boundaries from
the evaluated extent and `skip_overlap` removes regions where the reference
overlaps itself. -/
def DetectionErrorRate.evalUem (m : DetectionErrorRate) (reference : Annot)
    (uem : List Seg) : List Seg :=
  diffSegs
    (if m.skip_overlap then diffSegs uem (pairwiseInters (annSupport reference)) else uem)
    (collarZones m.collar (annSupport reference))

/-- Scalar error rate of the metric (continuation of the contract above). -/
def DetectionErrorRate.app (m : DetectionErrorRate) (reference hypothesis : Annot)
    (uem : List Seg) : ℚ :=
  (segMeasure (diffSegs (interSegs (annSupport hypothesis) (m.evalUem reference uem))
      (interSegs (annSupport reference) (m.evalUem reference uem))) +
   segMeasure (diffSegs (interSegs (annSupport reference) (m.evalUem reference uem))
      (interSegs (annSupport hypothesis) (m.evalUem reference uem)))) /
  segMeasure (interSegs (annSupport reference) (m.evalUem reference uem))

/-- Speech activity detection pipeline object right after `__init__`: the
scores path, the feature store handle, and the six hyper-parameters with the
continuous domains declared by `chocolate.uniform`. -/
structure SpeechActivityDetection where
  scores : String
  precomputed_ : Precomputed
  onset : HyperUniform
  offset : HyperUniform
  min_duration_on : HyperUniform
  min_duration_off : HyperUniform
  pad_onset : HyperUniform
  pad_offset : HyperUniform
deriving DecidableEq

/-- Constructor `SpeechActivityDetection.__init__(scores)`: a missing scores
path raises `ValueError` before any pipeline state is built; otherwise the
feature store handle and the six hyper-parameter domains are set. -/
def SpeechActivityDetection.init (scores : Option String) :
    Except String SpeechActivityDetection :=
  match scores with
  | none => .error "Path to precomputed scores must be provided."
  | some p => .ok
    { scores := p
      precomputed_ := ⟨p⟩
      onset := ⟨0, 1⟩
      offset := ⟨0, 1⟩
      min_duration_on := ⟨0, 2⟩
      min_duration_off := ⟨0, 2⟩
      pad_onset := ⟨-1, 1⟩
      pad_offset := ⟨-1, 1⟩ }

/-- Pipeline instance in its operational phase: the hyper-parameter slots hold
the concrete values assigned by the external search driver, `binarize_` is the
attribute created by `instantiate` (absent on a fresh instance), and
`log_scale_` is the lazily cached scale flag (absent until the first call). -/
structure SpeechActivityDetection.State where
  precomputed_ : Precomputed
  onset : ℚ
  offset : ℚ
  min_duration_on : ℚ
  min_duration_off : ℚ
  pad_onset : ℚ
  pad_offset : ℚ
  binarize_ : Option Binarize
  log_scale_ : Option Bool
deriving DecidableEq

/-- Operational state of a freshly constructed instance, once the search
driver has written the six concrete hyper-parameter values: neither the
`binarize_` nor the `log_scale_` attribute exists yet. -/
def SpeechActivityDetection.State.fromInit (i : SpeechActivityDetection)
    (onset offset min_duration_on min_duration_off pad_onset pad_offset : ℚ) :
    SpeechActivityDetection.State :=
  { precomputed_ := i.precomputed_
    onset := onset
    offset := offset
    min_duration_on := min_duration_on
    min_duration_off := min_duration_off
    pad_onset := pad_onset
    pad_offset := pad_offset
    binarize_ := none
    log_scale_ := none }

/-- Method `instantiate`: rebuild `binarize_` from the six current
hyper-parameter values, replacing whatever binarizer existed before. -/
def SpeechActivityDetection.instantiate (s : SpeechActivityDetection.State) :
    SpeechActivityDetection.State :=
  { s with
      binarize_ :=
        some (Binarize.mk s.onset s.offset s.min_duration_on s.min_duration_off
          s.pad_onset s.pad_offset) }

/-- Scale flag in force during a call: the cached `log_scale_` when it exists,
otherwise the heuristic `np.nanmean(precomputed.data) < 0` evaluated on the
file being processed. -/
def SpeechActivityDetection.resolvedFlag (s : SpeechActivityDetection.State)
    (current_file : File) : Bool :=
  match s.log_scale_ with
  | some b => b
  | none => nanLtZero (nanmean (s.precomputed_.load current_file).data)

/-- Scalar track handed to the binarizer by `__call__`:
`1 - (np.exp(data) if log_scale_ else data)[:, 0]`. -/
def SpeechActivityDetection.callTrack (expf : ℚ → ℚ)
    (s : SpeechActivityDetection.State) (current_file : File) : List Score :=
  speechTrack expf (SpeechActivityDetection.resolvedFlag s current_file)
    (s.precomputed_.load current_file).data

/-- Failure modes of `__call__` in the embedding: the `AttributeError` raised
when `self.binarize_` is accessed before `instantiate` ever ran. -/
inductive CallErr where
  | attributeError
deriving DecidableEq

/-- Result of `__call__` before the final conversion to an annotation: the
active segments, tagged with the file's unique identifier. The conversion
`to_annotation(generator='string', modality='speech')` itself belongs to the
external `pyannote.core` library and is outside this embedding. -/
structure Timeline where
  uri : String
  segs : List Seg
deriving DecidableEq

/-- Method `__call__`: load the precomputed scores, resolve (and cache) the
log-scale flag on first use, build the speech-probability track, and binarize
it; accessing the missing `binarize_` attribute raises after the flag has
already been cached, so the failing call still returns the updated state. -/
def SpeechActivityDetection.call (expf : ℚ → ℚ)
    (s : SpeechActivityDetection.State) (current_file : File) :
    Except CallErr Timeline × SpeechActivityDetection.State :=
  let pre := s.precomputed_.load current_file
  let s1 := { s with
    log_scale_ :=
      some (SpeechActivityDetection.resolvedFlag s current_file) }
  match s1.binarize_ with
  | none => (.error .attributeError, s1)
  | some b =>
    (.ok (Timeline.mk current_file.uid
      (b.apply (samplesOf pre.window
        (SpeechActivityDetection.callTrack expf s current_file)))), s1)

/-- States reached by a sequence of `__call__` invocations. -/
def SpeechActivityDetection.runCalls (expf : ℚ → ℚ)
    (s : SpeechActivityDetection.State) :
    List File → SpeechActivityDetection.State
  | [] => s
  | f :: fs =>
    SpeechActivityDetection.runCalls expf (SpeechActivityDetection.call expf s f).2 fs

/-- Modelled from the spec: `get_annotated` reads the annotated (evaluated)
time extent off the file descriptor. -/
def get_annotated (current_file : File) : List Seg :=
  current_file.annotated

/-- Method `loss`: detection error rate with fixed configuration
`collar=0.0, skip_overlap=False` between the file's reference annotation and
the hypothesis, restricted to the file's annotated extent. The `self`
parameter mirrors the method receiver; no instance attribute is read. -/
def SpeechActivityDetection.loss (_self : SpeechActivityDetection.State)
    (current_file : File) (hypothesis : Annot) : ℚ :=
  DetectionErrorRate.app ⟨0, false⟩ current_file.annot hypothesis
    (get_annotated current_file)

/-- Containment of segment `p` in segment `a`. -/
def within (a p : Seg) : Prop :=
  a.1 ≤ p.1 ∧ p.2 ≤ a.2

/-- Stand-in for the floating-point exponential in concrete evaluations (the
pipeline's behaviour under scrutiny never depends on which function is used). -/
def expId : ℚ → ℚ := fun q => q

/-- Fresh operational pipeline state used by concrete evaluations. -/
def freshState : SpeechActivityDetection.State :=
  { precomputed_ := ⟨"scores"⟩
    onset := 0
    offset := 0
    min_duration_on := 0
    min_duration_off := 0
    pad_onset := 0
    pad_offset := 0
    binarize_ := none
    log_scale_ := none }

/-- File whose score matrix has mean `-2` (no NaN). -/
def fileNeg : File :=
  { uid := "uri-neg"
    swf := { data := [[some (-2)]], window := ⟨0, 1, 1⟩ }
    annot := []
    annotated := [] }

/-- File whose score matrix has mean `2` (no NaN). -/
def filePos : File :=
  { uid := "uri-pos"
    swf := { data := [[some 2]], window := ⟨0, 1, 1⟩ }
    annot := []
    annotated := [] }

/-- File whose score matrix mixes a NaN entry with a negative entry: its plain
mean is NaN while its `nanmean` is `-4`. -/
def fileNaN : File :=
  { uid := "uri-nan"
    swf := { data := [[none, some (-4)]], window := ⟨0, 1, 1⟩ }
    annot := []
    annotated := [] }

/-- File whose score matrix consists entirely of NaN entries. -/
def fileAllNaN : File :=
  { uid := "uri-allnan"
    swf := { data := [[none], [none]], window := ⟨0, 1, 1⟩ }
    annot := []
    annotated := [] }

/-- File carrying a reference annotation and annotated extent, for the loss
evaluations. -/
def lossFile : File :=
  { uid := "uri-loss"
    swf := { data := [[some 1]], window := ⟨0, 1, 1⟩ }
    annot := [((0, 5), "speech")]
    annotated := [(0, 10)] }

/-- Binarizer configuration used by concrete evaluations: thresholds 0,
no minimum durations, `pad_onset = -1`, `pad_offset = 2`. -/
def binEx : Binarize := ⟨0, 0, 0, 0, -1, 2⟩

/-- Track that rises above the onset at `t = 1` and falls below the offset at
`t = 3`. -/
def trackEx : List (ℚ × Score) :=
  [(0, some (-1)), (1, some 1), (3, some (-1))]

/-- Membership in a `concatMap`. -/
theorem mem_concatMap {f : α → List β} {l : List α} {b : β} :
    b ∈ concatMap f l ↔ ∃ a ∈ l, b ∈ f a := by
  induction l with
  | nil => simp [concatMap]
  | cons x xs ih => simp [concatMap, ih]

/-- A `concatMap` whose pieces are all empty is empty. -/
theorem concatMap_eq_nil {f : α → List β} {l : List α}
    (h : ∀ x ∈ l, f x = []) : concatMap f l = [] := by
  induction l with
  | nil => rfl
  | cons x xs ih =>
    show f x ++ concatMap f xs = []
    rw [h x (List.mem_cons_self x xs),
      ih (fun y hy => h y (List.mem_cons_of_mem x hy))]
    rfl

/-- When no entry is NaN, `filterMap id` recovers exactly the value list. -/
theorem filterMap_id_of_listSequence {l : List Score} {vs : List ℚ}
    (h : listSequence l = some vs) : l.filterMap id = vs := by
  induction l generalizing vs with
  | nil =>
    have hv : vs = [] := (Option.some.inj h).symm
    subst hv
    rfl
  | cons x xs ih =>
    cases x with
    | none => exact Option.noConfusion h
    | some v =>
      rw [listSequence] at h
      cases hseq : listSequence xs with
      | none => rw [hseq] at h; exact Option.noConfusion h
      | some ws =>
        rw [hseq] at h
        have hv : v :: ws = vs := Option.some.inj h
        subst hv
        show v :: xs.filterMap id = v :: ws
        rw [ih hseq]

/-- If every entry is NaN, `filterMap id` is empty. -/
theorem filterMap_id_nil_of_none {l : List Score}
    (h : ∀ x ∈ l, x = none) : l.filterMap id = [] := by
  induction l with
  | nil => rfl
  | cons x xs ih =>
    have hx := h x (List.mem_cons_self x xs)
    subst hx
    show xs.filterMap id = []
    exact ih (fun y hy => h y (List.mem_cons_of_mem _ hy))

/-- When the plain IEEE mean exists, `nanmean` agrees with it. -/
theorem nanmean_of_floatMean {data : List (List Score)} {m : ℚ}
    (h : floatMean data = some m) : nanmean data = some m := by
  unfold floatMean at h
  unfold nanmean
  cases hseq : listSequence (flattenS data) with
  | none => rw [hseq] at h; exact Option.noConfusion h
  | some vs =>
    rw [hseq] at h
    rw [filterMap_id_of_listSequence hseq]
    exact h

/-- Column 0 commutes with an entrywise map that fixes NaN. -/
theorem col0_map (expf : ℚ → ℚ) (row : List Score) :
    col0 (row.map (Option.map expf)) = Option.map expf (col0 row) := by
  cases row <;> simp [col0]

/-- In log-scale mode, frame `i` of the speech track is
`1 - expf (raw column-0 score of frame i)`. -/
theorem speechTrack_log (expf : ℚ → ℚ) (data : List (List Score)) :
    speechTrack expf true data
      = data.map (fun row => oneMinus (Option.map expf (col0 row))) := by
  induction data with
  | nil => rfl
  | cons row rows ih =>
    have h1 : speechTrack expf true (row :: rows)
        = oneMinus (col0 (row.map (Option.map expf))) :: speechTrack expf true rows := rfl
    rw [h1, col0_map, ih, List.map_cons]

/-- In linear mode, frame `i` of the speech track is
`1 - raw column-0 score of frame i`. -/
theorem speechTrack_lin (expf : ℚ → ℚ) (data : List (List Score)) :
    speechTrack expf false data = data.map (fun row => oneMinus (col0 row)) := rfl

/-- The state returned by `__call__` is the input state with the scale flag
cached (whether or not the binarizer attribute existed). -/
theorem call_snd (expf : ℚ → ℚ) (s : SpeechActivityDetection.State) (f : File) :
    (SpeechActivityDetection.call expf s f).2
      = { s with
            log_scale_ := some (SpeechActivityDetection.resolvedFlag s f) } := by
  unfold SpeechActivityDetection.call
  cases h : s.binarize_ <;> simp [h]

/-- Scale flag cached by a call. -/
theorem call_flag (expf : ℚ → ℚ) (s : SpeechActivityDetection.State) (f : File) :
    (SpeechActivityDetection.call expf s f).2.log_scale_
      = some (SpeechActivityDetection.resolvedFlag s f) := by
  rw [call_snd]

/-- A cached flag short-circuits the heuristic. -/
theorem resolvedFlag_of_some {s : SpeechActivityDetection.State} {b : Bool}
    (f : File) (h : s.log_scale_ = some b) :
    SpeechActivityDetection.resolvedFlag s f = b := by
  unfold SpeechActivityDetection.resolvedFlag
  rw [h]

/-- With no cached flag, the heuristic inspects the file's `nanmean`. -/
theorem resolvedFlag_of_none {s : SpeechActivityDetection.State} (f : File)
    (h : s.log_scale_ = none) :
    SpeechActivityDetection.resolvedFlag s f = nanLtZero (nanmean f.swf.data) := by
  unfold SpeechActivityDetection.resolvedFlag
  rw [h]
  rfl

/-- Residual pieces of `segSub` stay inside the segment they came from. -/
theorem segSub_within {a p : Seg} (hp : within a p) (b : Seg) :
    ∀ q ∈ segSub p b, within a q := by
  intro q hq
  unfold segSub at hq
  rcases List.mem_append.1 hq with h | h
  · by_cases hc : p.1 < min p.2 b.1
    · rw [if_pos hc] at h
      rw [List.mem_singleton] at h
      subst h
      exact ⟨hp.1, le_trans (min_le_left _ _) hp.2⟩
    · rw [if_neg hc] at h
      exact absurd h (List.not_mem_nil q)
  · by_cases hc : max p.1 b.2 < p.2
    · rw [if_pos hc] at h
      rw [List.mem_singleton] at h
      subst h
      exact ⟨le_trans hp.1 (le_max_left _ _), hp.2⟩
    · rw [if_neg hc] at h
      exact absurd h (List.not_mem_nil q)

/-- Subtracting a segment from any piece it contains leaves nothing. -/
theorem segSub_self_nil {a p : Seg} (hp : within a p) : segSub p a = [] := by
  have h1 : ¬ (p.1 < min p.2 a.1) := fun hc =>
    absurd (lt_of_lt_of_le hc (min_le_right _ _)) (not_lt.mpr hp.1)
  have h2 : ¬ (max p.1 a.2 < p.2) := fun hc =>
    absurd (lt_of_le_of_lt (le_max_right _ _) hc) (not_lt.mpr hp.2)
  unfold segSub
  rw [if_neg h1, if_neg h2]
  rfl

/-- A subtraction step preserves containment of all pieces. -/
theorem subStep_within {a : Seg} {acc : List Seg}
    (h : ∀ p ∈ acc, within a p) (b : Seg) :
    ∀ q ∈ subStep acc b, within a q := by
  intro q hq
  unfold subStep at hq
  rcases mem_concatMap.1 hq with ⟨p, hp, hqp⟩
  exact segSub_within (h p hp) b q hqp

/-- Subtracting the containing segment itself wipes out every piece. -/
theorem subStep_self_nil {a : Seg} {acc : List Seg}
    (h : ∀ p ∈ acc, within a p) : subStep acc a = [] := by
  unfold subStep
  exact concatMap_eq_nil (fun p hp => segSub_self_nil (h p hp))

/-- Once the accumulator is empty it stays empty. -/
theorem foldl_subStep_nil (l : List Seg) : l.foldl subStep [] = [] := by
  induction l with
  | nil => rfl
  | cons b bs ih => exact ih

/-- Folding subtraction over a list containing `a` empties an accumulator of
pieces of `a`. -/
theorem foldl_subStep_of_mem {a : Seg} (B : List Seg) :
    ∀ acc, (∀ p ∈ acc, within a p) → a ∈ B → B.foldl subStep acc = [] := by
  induction B with
  | nil =>
    intro acc _ hmem
    exact absurd hmem (List.not_mem_nil a)
  | cons b bs ih =>
    intro acc hacc hmem
    rcases List.mem_cons.1 hmem with hb | hb
    · subst hb
      show List.foldl subStep (subStep acc a) bs = []
      rw [subStep_self_nil hacc]
      exact foldl_subStep_nil bs
    · show List.foldl subStep (subStep acc b) bs = []
      exact ih _ (subStep_within hacc b) hb

/-- A segment appearing in `B` leaves no residue when `B` is subtracted. -/
theorem subMany_eq_nil_of_mem {a : Seg} {B : List Seg} (h : a ∈ B) :
    subMany a B = [] := by
  unfold subMany
  refine foldl_subStep_of_mem B [a] ?_ h
  intro p hp
  rw [List.mem_singleton] at hp
  subst hp
  exact ⟨le_refl _, le_refl _⟩

/-- An interval list minus itself is empty. -/
theorem diffSegs_self (X : List Seg) : diffSegs X X = [] := by
  unfold diffSegs
  exact concatMap_eq_nil (fun a ha => subMany_eq_nil_of_mem ha)

/-- The modelled metric vanishes when hypothesis and reference coincide. -/
theorem derApp_self (m : DetectionErrorRate) (a : Annot) (uem : List Seg) :
    DetectionErrorRate.app m a a uem = 0 := by
  unfold DetectionErrorRate.app
  rw [diffSegs_self]
  show ((0 : ℚ) + 0) / segMeasure (interSegs (annSupport a) (m.evalUem a uem)) = 0
  rw [add_zero, zero_div]

/-- C1: for a file whose score matrix has a strictly negative (plain) mean, a
call on a not-yet-resolved pipeline resolves the scale flag to log-scaled and
the per-frame speech probability passed to the binarizer is
`1 - expf s` with `s` the raw column-0 score of the frame; for a non-negative
mean it resolves to linear-scaled and the probability is `1 - s` exactly. -/
theorem claim_C1_scale_and_probability (expf : ℚ → ℚ)
    (s : SpeechActivityDetection.State) (f : File)
    (hfresh : s.log_scale_ = none) :
    (∀ m : ℚ, floatMean f.swf.data = some m → m < 0 →
      (SpeechActivityDetection.call expf s f).2.log_scale_ = some true ∧
      SpeechActivityDetection.callTrack expf s f
        = f.swf.data.map (fun row => oneMinus (Option.map expf (col0 row)))) ∧
    (∀ m : ℚ, floatMean f.swf.data = some m → 0 ≤ m →
      (SpeechActivityDetection.call expf s f).2.log_scale_ = some false ∧
      SpeechActivityDetection.callTrack expf s f
        = f.swf.data.map (fun row => oneMinus (col0 row))) := by
  have hflag := resolvedFlag_of_none f hfresh
  constructor
  · intro m hm hneg
    have hnm : nanmean f.swf.data = some m := nanmean_of_floatMean hm
    have hb : SpeechActivityDetection.resolvedFlag s f = true := by
      rw [hflag, hnm]
      exact decide_eq_true hneg
    constructor
    · rw [call_flag, hb]
    · unfold SpeechActivityDetection.callTrack
      rw [hb]
      exact speechTrack_log expf _
  · intro m hm hge
    have hnm : nanmean f.swf.data = some m := nanmean_of_floatMean hm
    have hb : SpeechActivityDetection.resolvedFlag s f = false := by
      rw [hflag, hnm]
      exact decide_eq_false (not_lt.mpr hge)
    constructor
    · rw [call_flag, hb]
    · unfold SpeechActivityDetection.callTrack
      rw [hb]
      rfl

/-- C1 witness: a concrete negative-mean file on a fresh pipeline. -/
theorem claim_C1_witness :
    (SpeechActivityDetection.call expId freshState fileNeg).2.log_scale_ = some true ∧
    SpeechActivityDetection.callTrack expId freshState fileNeg
      = fileNeg.swf.data.map (fun row => oneMinus (Option.map expId (col0 row))) :=
  (claim_C1_scale_and_probability expId freshState fileNeg rfl).1 (-2)
    (by with_unfolding_all decide) (by with_unfolding_all decide)

/-- C2 counterexample: on the matrix `[[NaN, -4]]` the mean of all entries is
NaN, hence not negative, so the claim as stated predicts linear-scaled; the
first call on a fresh pipeline nonetheless marks the instance log-scaled,
because the code tests `np.nanmean`, which ignores the NaN entry. -/
theorem claim_C2_counterexample :
    (SpeechActivityDetection.call expId freshState fileNaN).2.log_scale_
      ≠ some (specScaleFlag fileNaN.swf.data) := by
  with_unfolding_all decide

/-- C2 (amended): on the very first invocation of `__call__` only, the
pipeline inspects the mean of the non-NaN entries of the loaded score matrix
(`np.nanmean`): if that mean is negative the instance is marked log-scaled,
otherwise (including when no non-NaN entry exists) linear-scaled; on a later
invocation the cached flag is returned unchanged and no inspection happens. -/
theorem claim_C2_amended_first_call_inspection (expf : ℚ → ℚ)
    (s : SpeechActivityDetection.State) (f : File) :
    (s.log_scale_ = none →
      (SpeechActivityDetection.call expf s f).2.log_scale_
        = some (nanLtZero (nanmean f.swf.data))) ∧
    (∀ b : Bool, s.log_scale_ = some b →
      (SpeechActivityDetection.call expf s f).2.log_scale_ = some b) := by
  constructor
  · intro h
    rw [call_flag, resolvedFlag_of_none f h]
  · intro b h
    rw [call_flag, resolvedFlag_of_some f h]

/-- C2 witness: the first call caches the `nanmean` sign; a second call with a
positive-mean file returns the cached flag unchanged. -/
theorem claim_C2_amended_witness :
    (SpeechActivityDetection.call expId freshState fileNeg).2.log_scale_
      = some (nanLtZero (nanmean fileNeg.swf.data)) ∧
    (SpeechActivityDetection.call expId
      ((SpeechActivityDetection.call expId freshState fileNeg).2)
      filePos).2.log_scale_ = some true :=
  ⟨(claim_C2_amended_first_call_inspection expId freshState fileNeg).1 rfl,
   (claim_C2_amended_first_call_inspection expId
     ((SpeechActivityDetection.call expId freshState fileNeg).2) filePos).2
     true (by with_unfolding_all decide)⟩

/-- C3: once the scale flag holds a value, no sequence of further calls ever
changes it, whatever the later files' score statistics are. -/
theorem claim_C3_cached_flag_invariant (expf : ℚ → ℚ)
    (s : SpeechActivityDetection.State) (b : Bool) (files : List File)
    (h : s.log_scale_ = some b) :
    (SpeechActivityDetection.runCalls expf s files).log_scale_ = some b := by
  induction files generalizing s with
  | nil => exact h
  | cons f fs ih =>
    have h2 : (SpeechActivityDetection.call expf s f).2.log_scale_ = some b := by
      rw [call_flag, resolvedFlag_of_some f h]
    exact ih _ h2

/-- C3 witness: the flag resolved to log-scaled on a negative-mean first file
survives a subsequent call on a positive-mean file. -/
theorem claim_C3_witness :
    (SpeechActivityDetection.runCalls expId
      ((SpeechActivityDetection.call expId freshState fileNeg).2)
      [filePos]).log_scale_ = some true :=
  claim_C3_cached_flag_invariant expId
    ((SpeechActivityDetection.call expId freshState fileNeg).2) true [filePos]
    (by with_unfolding_all decide)

/-- C5: constructing without a scores path yields the configuration error and
no pipeline object; with a path, construction succeeds and declares the six
hyper-parameters with domains onset, offset ∈ [0,1], min-duration-on,
min-duration-off ∈ [0,2], pad-onset, pad-offset ∈ [-1,1]. -/
theorem claim_C5_construction :
    SpeechActivityDetection.init none
      = .error "Path to precomputed scores must be provided." ∧
    ∀ p : String, SpeechActivityDetection.init (some p)
      = .ok (SpeechActivityDetection.mk p ⟨p⟩ ⟨0, 1⟩ ⟨0, 1⟩ ⟨0, 2⟩ ⟨0, 2⟩
          ⟨-1, 1⟩ ⟨-1, 1⟩) :=
  ⟨rfl, fun _ => rfl⟩

/-- C6: however many times `instantiate` has already run, running it (once
more) on a state whose six hyper-parameter values agree with `s` produces a
binarizer built exactly from those six values — prior binarizer state is fully
replaced and the call count is irrelevant. -/
theorem claim_C6_instantiate_rebuilds (s t : SpeechActivityDetection.State)
    (n : ℕ)
    (h1 : t.onset = s.onset) (h2 : t.offset = s.offset)
    (h3 : t.min_duration_on = s.min_duration_on)
    (h4 : t.min_duration_off = s.min_duration_off)
    (h5 : t.pad_onset = s.pad_onset) (h6 : t.pad_offset = s.pad_offset) :
    (SpeechActivityDetection.instantiate^[n + 1] t).binarize_
      = some (Binarize.mk s.onset s.offset s.min_duration_on
          s.min_duration_off s.pad_onset s.pad_offset) := by
  induction n generalizing t with
  | zero =>
    rw [Function.iterate_one]
    unfold SpeechActivityDetection.instantiate
    rw [h1, h2, h3, h4, h5, h6]
  | succ k ih =>
    rw [Function.iterate_succ_apply]
    exact ih _ h1 h2 h3 h4 h5 h6

/-- C6 witness: two consecutive instantiations on the fixture state. -/
theorem claim_C6_witness :
    (SpeechActivityDetection.instantiate^[2] freshState).binarize_
      = some (Binarize.mk 0 0 0 0 0 0) :=
  claim_C6_instantiate_rebuilds freshState freshState 1 rfl rfl rfl rfl rfl rfl

/-- C7: `loss` is the detection error rate with fixed configuration
`collar = 0`, `skip_overlap = False` between the file's reference annotation
and the hypothesis restricted to the annotated extent; it depends on no
pipeline state; and on identical reference and hypothesis it returns 0. -/
theorem claim_C7_loss_contract (self : SpeechActivityDetection.State)
    (current_file : File) (hypothesis : Annot) :
    SpeechActivityDetection.loss self current_file hypothesis
      = DetectionErrorRate.app ⟨0, false⟩ current_file.annot hypothesis
          (get_annotated current_file) ∧
    (∀ other : SpeechActivityDetection.State,
      SpeechActivityDetection.loss other current_file hypothesis
        = SpeechActivityDetection.loss self current_file hypothesis) ∧
    (current_file.annot = hypothesis →
      SpeechActivityDetection.loss self current_file hypothesis = 0) := by
  refine ⟨rfl, fun _ => rfl, ?_⟩
  intro h
  unfold SpeechActivityDetection.loss
  rw [← h]
  exact derApp_self _ _ _

/-- C7 witness: identical reference and hypothesis over the same extent. -/
theorem claim_C7_witness :
    SpeechActivityDetection.loss freshState lossFile [((0, 5), "speech")] = 0 :=
  (claim_C7_loss_contract freshState lossFile [((0, 5), "speech")]).2.2 rfl

/-- C8: every region emitted by the binarizer is a retained active region with
`pad_onset` applied at its start and `pad_offset` at its end, and its start
never exceeds its end — a region that padding would invert degenerates to
empty instead of being emitted with negative length. -/
theorem claim_C8_padding_never_inverts (b : Binarize)
    (track : List (ℚ × Score)) (seg : Seg) (h : seg ∈ b.apply track) :
    seg.1 ≤ seg.2 ∧
    ∃ r ∈ b.retained track,
      seg.1 = r.1 + b.pad_onset ∧ seg.2 = r.2 + b.pad_offset := by
  unfold Binarize.apply at h
  rcases List.mem_filterMap.1 h with ⟨r, hr, heq⟩
  by_cases hc : r.1 + b.pad_onset < r.2 + b.pad_offset
  · rw [if_pos hc] at heq
    obtain rfl := Option.some.inj heq
    exact ⟨le_of_lt hc, r, hr, rfl, rfl⟩
  · rw [if_neg hc] at heq
    exact Option.noConfusion heq

/-- C8 witness: the fixture track activates on [1, 3]; with `pad_onset = -1`
and `pad_offset = 2` the emitted region is [0, 5]. -/
theorem claim_C8_witness :
    ((0 : ℚ), (5 : ℚ)).1 ≤ ((0 : ℚ), (5 : ℚ)).2 ∧
    ∃ r ∈ binEx.retained trackEx,
      ((0 : ℚ), (5 : ℚ)).1 = r.1 + binEx.pad_onset ∧
      ((0 : ℚ), (5 : ℚ)).2 = r.2 + binEx.pad_offset :=
  claim_C8_padding_never_inverts binEx trackEx (0, 5) (by with_unfolding_all decide)

/-- C9: the first-call scale decision applies the sign test to the mean of
the non-NaN entries only (`np.nanmean`); in particular a matrix consisting
entirely of NaN entries resolves to linear-scaled. -/
theorem claim_C9_nanmean_ignores_nan (expf : ℚ → ℚ)
    (s : SpeechActivityDetection.State) (f : File)
    (hfresh : s.log_scale_ = none) :
    (SpeechActivityDetection.call expf s f).2.log_scale_
      = some (nanLtZero (nanmean f.swf.data)) ∧
    ((∀ x ∈ flattenS f.swf.data, x = none) →
      (SpeechActivityDetection.call expf s f).2.log_scale_ = some false) := by
  have h1 : (SpeechActivityDetection.call expf s f).2.log_scale_
      = some (nanLtZero (nanmean f.swf.data)) := by
    rw [call_flag, resolvedFlag_of_none f hfresh]
  refine ⟨h1, fun hall => ?_⟩
  have h2 : nanmean f.swf.data = none := by
    unfold nanmean
    rw [filterMap_id_nil_of_none hall]
    rfl
  rw [h1, h2]
  rfl

/-- C9 witness: `[[NaN, -4]]` resolves to log-scaled (nanmean is -4);
`[[NaN], [NaN]]` resolves to linear-scaled. -/
theorem claim_C9_witness :
    (SpeechActivityDetection.call expId freshState fileNaN).2.log_scale_
      = some true ∧
    (SpeechActivityDetection.call expId freshState fileAllNaN).2.log_scale_
      = some false := by
  constructor
  · have h := (claim_C9_nanmean_ignores_nan expId freshState fileNaN rfl).1
    rw [h]
    with_unfolding_all decide
  · exact (claim_C9_nanmean_ignores_nan expId freshState fileAllNaN rfl).2
      (by decide)

/-- C10: on a freshly constructed instance (the `binarize_` attribute does not
exist yet) any call fails with the attribute error, and `instantiate` is what
creates the attribute. -/
theorem claim_C10_call_requires_instantiate (expf : ℚ → ℚ)
    (i : SpeechActivityDetection)
    (onset offset mdon mdoff pon poff : ℚ) (f : File) :
    (SpeechActivityDetection.call expf
      (SpeechActivityDetection.State.fromInit i onset offset mdon mdoff pon poff)
      f).1 = .error .attributeError ∧
    ∀ s : SpeechActivityDetection.State,
      ((SpeechActivityDetection.instantiate s).binarize_).isSome = true :=
  ⟨rfl, fun _ => rfl⟩
